import Mathlib

/-!
Verification of the werf build-phase core (pkg/build/build_phase.go) and the
docker container-driver retry loops (pkg/docker/image.go).

The Go code is shallowly embedded: pure computations (digest calculation,
report assembly, JSON shape, retry control flow) become Lean functions;
effectful calls on the storage manager, lock manager, container runtime and
git repository become environment records holding each call's result, and the
calls actually performed are recorded as an explicit event trace in program
order.  Machine integers are `Nat` with explicit `% 2 ^ 64` masking where the
Keccak permutation overflows.
-/

/-! ## Bytes, UTF-8, hex -/

/-- Byte sequence of the UTF-8 encoding of one character (Go `[]byte(string)`
iterates the UTF-8 bytes). Each produced value is `< 256`. -/
def utf8EncodeChar (c : Char) : List Nat :=
  let n := c.toNat
  if n < 0x80 then [n]
  else if n < 0x800 then [0xC0 ||| (n >>> 6), 0x80 ||| (n &&& 0x3F)]
  else if n < 0x10000 then
    [0xE0 ||| (n >>> 12), 0x80 ||| ((n >>> 6) &&& 0x3F), 0x80 ||| (n &&& 0x3F)]
  else
    [0xF0 ||| (n >>> 18), 0x80 ||| ((n >>> 12) &&& 0x3F), 0x80 ||| ((n >>> 6) &&& 0x3F),
     0x80 ||| (n &&& 0x3F)]

/-- UTF-8 bytes of a string, the byte sequence Go hashes. -/
def utf8Encode (s : String) : List Nat :=
  (s.data.map utf8EncodeChar).flatten

/-- Lowercase hexadecimal digit for `n < 16`. -/
def hexDigitChar (n : Nat) : Char :=
  "0123456789abcdef".data.getD n '0'

/-- Lowercase-hex encoding of a byte list, as Go `fmt.Sprintf("%x", sum)`. -/
def hexEncode (bs : List Nat) : String :=
  String.mk ((bs.map (fun b => [hexDigitChar (b / 16), hexDigitChar (b % 16)])).flatten)

/-- Whether a character is a lowercase hexadecimal digit. -/
def isLowerHexDigit (c : Char) : Bool :=
  "0123456789abcdef".data.contains c

/-! ## Keccak-f[1600] and SHA3-224

The 25 lanes are 64-bit words kept as `Nat` masked to `2 ^ 64`; the state is a
`List Nat` of length 25 indexed by `x + 5 * y`. -/

/-- 64-bit left rotation (input assumed `< 2 ^ 64`, `0 ≤ n < 64`). -/
def rotl64 (x n : Nat) : Nat :=
  ((x <<< n) % 2 ^ 64) ||| (x >>> (64 - n))

/-- One step of the degree-8 LFSR generating the Keccak round-constant bits:
the output bit is the register's low bit, the register then shifts with
feedback polynomial `x^8 + x^6 + x^5 + x^4 + 1`. -/
def keccakLFSR (state : Nat) : Nat × Nat :=
  (state &&& 1,
   if state &&& 0x80 ≠ 0 then ((state <<< 1) ^^^ 0x71) &&& 0xFF else (state <<< 1) &&& 0xFF)

/-- Round constants from a given LFSR state: each constant collects seven LFSR
output bits at bit positions `2 ^ j - 1`. -/
def keccakRCFrom : Nat → Nat → List Nat
  | 0, _ => []
  | n + 1, state =>
    let r := (List.range 7).foldl
      (fun acc j =>
        let b := keccakLFSR acc.2
        (acc.1 ||| (b.1 <<< (2 ^ j - 1)), b.2))
      (0, state)
    r.1 :: keccakRCFrom n r.2

/-- The 24 Keccak round constants (LFSR seeded with 1). -/
def keccakRC : List Nat := keccakRCFrom 24 1

/-- The 24 rho rotations as (lane index, offset) pairs: starting from lane
(1, 0), step `t` rotates the current lane by the triangular number
`(t+1)(t+2)/2 mod 64` and moves to `(y, 2x+3y mod 5)`. -/
def keccakRhoPairs : List (Nat × Nat) :=
  ((List.range 24).foldl
    (fun acc t =>
      let x := acc.2.1
      let y := acc.2.2
      ((x + 5 * y, (t + 1) * (t + 2) / 2 % 64) :: acc.1, (y, (2 * x + 3 * y) % 5)))
    ([], (1, 0))).1

/-- Rho rotation offsets, indexed by `x + 5 * y` (lane 0 is not rotated). -/
def keccakRhoOffsets : List Nat :=
  (List.range 25).map (fun i =>
    (((keccakRhoPairs.find? (fun p => p.1 = i)).map (fun p => p.2)).getD 0))

/-- Theta column parity. -/
def keccakThetaC (st : List Nat) (x : Nat) : Nat :=
  st.getD x 0 ^^^ st.getD (x + 5) 0 ^^^ st.getD (x + 10) 0 ^^^ st.getD (x + 15) 0 ^^^
    st.getD (x + 20) 0

/-- Theta step. -/
def keccakTheta (st : List Nat) : List Nat :=
  (List.range 25).map (fun t =>
    st.getD t 0 ^^^ keccakThetaC st ((t % 5 + 4) % 5) ^^^
      rotl64 (keccakThetaC st ((t % 5 + 1) % 5)) 1)

/-- Combined rho rotation and pi lane permutation. -/
def keccakRhoPi (st : List Nat) : List Nat :=
  (List.range 25).map (fun t =>
    let xp := t % 5
    let yp := t / 5
    let src := (xp + 3 * yp) % 5 + 5 * xp
    rotl64 (st.getD src 0) (keccakRhoOffsets.getD src 0))

/-- Chi step. -/
def keccakChi (st : List Nat) : List Nat :=
  (List.range 25).map (fun t =>
    let x := t % 5
    let y := t / 5
    st.getD t 0 ^^^
      ((st.getD ((x + 1) % 5 + 5 * y) 0 ^^^ (2 ^ 64 - 1)) &&& st.getD ((x + 2) % 5 + 5 * y) 0))

/-- Iota step: xor the round constant into lane (0, 0). -/
def keccakIota (rc : Nat) (st : List Nat) : List Nat :=
  match st with
  | [] => []
  | a :: rest => (a ^^^ rc) :: rest

/-- One Keccak round. -/
def keccakRound (st : List Nat) (rc : Nat) : List Nat :=
  keccakIota rc (keccakChi (keccakRhoPi (keccakTheta st)))

/-- The full Keccak-f[1600] permutation (24 rounds). -/
def keccakF (st : List Nat) : List Nat :=
  keccakRC.foldl keccakRound st

/-- SHA3-224 sponge rate in bytes (1152 bits). -/
def sha3Rate : Nat := 144

/-- SHA3 `pad10*1` padding with domain separation byte `0x06`. -/
def sha3Pad (bs : List Nat) : List Nat :=
  let q := sha3Rate - bs.length % sha3Rate
  if q = 1 then bs ++ [0x86]
  else bs ++ [0x06] ++ List.replicate (q - 2) 0 ++ [0x80]

/-- Split a padded message (length a multiple of the rate) into rate-sized blocks. -/
def toBlocks (bs : List Nat) : List (List Nat) :=
  (List.range (bs.length / sha3Rate)).map (fun i => (bs.drop (sha3Rate * i)).take sha3Rate)

/-- Little-endian load of lane `j` from a rate-sized byte block. -/
def loadLane (block : List Nat) (j : Nat) : Nat :=
  (List.range 8).foldl (fun acc i => acc ||| (block.getD (8 * j + i) 0 <<< (8 * i))) 0

/-- Absorb one block: xor its 18 lanes into the state. -/
def xorBlock (st block : List Nat) : List Nat :=
  (List.range 25).map (fun k => if k < 18 then st.getD k 0 ^^^ loadLane block k else st.getD k 0)

/-- SHA3-224 of a byte sequence: absorb all padded blocks, squeeze 28 bytes. -/
def sha3_224Bytes (msg : List Nat) : List Nat :=
  let st := (toBlocks (sha3Pad msg)).foldl (fun st b => keccakF (xorBlock st b))
    (List.replicate 25 0)
  (List.range 28).map (fun i => (st.getD (i / 8) 0 >>> (8 * (i % 8))) % 256)

/-- Modelled from the spec: `util.Sha3_224Hash` (pkg/util of this repository, not
under src/) — "a fixed cryptographic hash (SHA3-224)", "Digest format: lowercase
hex SHA3-224 (56 chars)".  The variadic string arguments are combined into one
byte string with a fixed separator before hashing; the separator choice is the
model's, the spec fixes only that the hash input is the argument list in order. -/
def Sha3_224Hash (args : List String) : String :=
  hexEncode (sha3_224Bytes (utf8Encode (String.intercalate ":::" args)))

/-! ## Digest calculation (`calculateDigest`, build_phase.go) -/

/-- Modelled from the spec: `image.BuildCacheVersion` (pkg/image of this
repository, not under src/) — "Global build-cache version constant (bumped to
force global cache invalidation)".  A fixed string constant. -/
def BuildCacheVersion : String := "1.1"

/-- The digest-relevant view of a stage passed as `prevNonEmptyStage` to
`calculateDigest`: its name (used in the error message), its already-assigned
digest (`GetDigest`), and the result of its `GetNextStageDependencies` call. -/
structure PrevStage where
  name : String
  digest : String
  nextStageDependencies : Except String String

/-- `calculateDigest` (build_phase.go): hash of the build-cache version, the
stage name and its dependency string, extended — when a previous non-empty
stage exists — with that stage's digest and its `GetNextStageDependencies`
result; a failing `GetNextStageDependencies` aborts with a wrapped error. -/
def calculateDigest (stageName stageDependencies : String)
    (prevNonEmptyStage : Option PrevStage) : Except String String :=
  let checksumArgs := [BuildCacheVersion, stageName, stageDependencies]
  match prevNonEmptyStage with
  | none => .ok (Sha3_224Hash checksumArgs)
  | some prev =>
    match prev.nextStageDependencies with
    | .error err =>
      .error ("unable to get prev stage " ++ prev.name ++ " dependencies for the stage " ++
        stageName ++ ": " ++ err)
    | .ok prevStageDependencies =>
      .ok (Sha3_224Hash (checksumArgs ++ [prev.digest, prevStageDependencies]))

/-! ## Build-phase data model (build_phase.go) -/

/-- `image.StageID`: a stage digest plus the unique suffix of one stored layer. -/
structure StageID where
  digest : String
  uniqueID : String
deriving DecidableEq

/-- The image info carried by a stage description (name, repository, tag, docker
image ID; size and times are irrelevant to the claims and omitted). -/
structure ImageInfo where
  name : String
  repository : String
  tag : String
  id : String
deriving DecidableEq

/-- `image.StageDescription`: persisted metadata of one stored stage. -/
structure StageDescription where
  info : ImageInfo
  stageID : StageID
deriving DecidableEq

/-- `container_runtime.StageImage` as the build phase observes it: its current
name and, once resolved, its stage description. -/
structure StageImage where
  name : String
  stageDescription : Option StageDescription
deriving DecidableEq

/-- Mutable per-stage state threaded through the handler: the digest and
content digest assigned by `calculateStage`, and the bound stage image. -/
structure StageState where
  digest : Option String
  contentDigest : Option String
  image : Option StageImage
deriving DecidableEq

/-- Mutable build-phase state visible to later stages. -/
structure PhaseState where
  shouldBeBuiltMode : Bool
  shouldAddManagedImageRecord : Bool
deriving DecidableEq

/-- Result of a Go function in the model: normal return value `nil`, an error
return, or a `panic`. -/
inductive GoResult where
  | ok
  | err (msg : String)
  | panicked (msg : String)
deriving DecidableEq

/-- Map a Go `return f(...)` of an error-returning call to a `GoResult`. -/
def goOf (r : Except String Unit) : GoResult :=
  match r with
  | .error e => .err e
  | .ok _ => .ok

/-- One observable call performed by the build phase, in program order.
Storage, lock-manager, container-runtime and git calls each get an event. -/
inductive BuildEvent where
  | fetchDependencies
  | lockStageDigestMutex (digest : String)
  | unlockStageDigestMutex (digest : String)
  | getStagesByDigest (digest : String)
  | selectSuitableStage (digest : String)
  | createFreshStageImage (name : String)
  | shouldBeBuiltDiagnostic (lines : List String)
  | fetchBaseImage
  | fetchStagePrevBuilt
  | prepareStage
  | buildStage
  | lockStage (digest : String)
  | unlockStage (digest : String)
  | generateStageUniqueID (digest : String)
  | storeImage (name : String)
  | getStageDescription (digest uniqueID : String)
  | atomicStoreStagesByDigestToCache (name digest : String) (stageIDs : List StageID)
  | introspect
  | headCommit
  | isImageMetadataExist (project imageName commit stageID : String)
  | putImageMetadata (project imageName commit stageID : String)
  | addManagedImage (project imageName : String)
deriving DecidableEq

/-- Whether an event is the in-process digest-mutex `Lock`. -/
def isLockMutexEvent (e : BuildEvent) : Bool :=
  match e with
  | .lockStageDigestMutex _ => true
  | _ => false

/-- Whether an event is the in-process digest-mutex `Unlock`. -/
def isUnlockMutexEvent (e : BuildEvent) : Bool :=
  match e with
  | .unlockStageDigestMutex _ => true
  | _ => false

/-- Whether an event creates a fresh (to-be-built) stage image. -/
def isCreateFreshEvent (e : BuildEvent) : Bool :=
  match e with
  | .createFreshStageImage _ => true
  | _ => false

/-- Whether an event is the container-runtime build. -/
def isBuildEvent (e : BuildEvent) : Bool :=
  match e with
  | .buildStage => true
  | _ => false

/-- Whether an event publishes to storage or the digest cache: `StoreImage`,
`GenerateStageUniqueID` or `AtomicStoreStagesByDigestToCache`. -/
def isPublishEvent (e : BuildEvent) : Bool :=
  match e with
  | .storeImage _ => true
  | .generateStageUniqueID _ => true
  | .atomicStoreStagesByDigestToCache _ _ _ => true
  | _ => false

/-- Whether an event touches image-metadata storage (`HeadCommit` query,
`IsImageMetadataExist`, `PutImageMetadata`). -/
def isImageMetadataEvent (e : BuildEvent) : Bool :=
  match e with
  | .headCommit => true
  | .isImageMetadataExist _ _ _ _ => true
  | .putImageMetadata _ _ _ _ => true
  | _ => false

/-- Whether an event is the `PutImageMetadata` storage write. -/
def isPutImageMetadataEvent (e : BuildEvent) : Bool :=
  match e with
  | .putImageMetadata _ _ _ _ => true
  | _ => false

/-! ## The should-be-built diagnostic (`printShouldBeBuiltError`) -/

/-- Dockerfile-image possible-cause text of the should-be-built diagnostic. -/
def dockerfileReasonText : String :=
  "Dockerfile has COPY or ADD instruction which uses non-permanent data that affects stage digest:\n- .git directory which should be excluded with .dockerignore file (https://docs.docker.com/engine/reference/builder/#dockerignore-file)\n- auto-generated file"

/-- werf.yaml possible-cause text of the should-be-built diagnostic. -/
def werfYamlReasonText : String :=
  "werf.yaml has non-permanent data that affects stage digest:\n- environment variable (e.g. \x7b\x7b env \"JOB_ID\" \x7d\x7d)\n- dynamic go template function (e.g. one of sprig date functions http://masterminds.github.io/sprig/date.html)\n- auto-generated file content (e.g. \x7b\x7b .Files.Get \"hash_sum_of_something\" \x7d\x7d)"

/-- Unnumbered guidance text of the should-be-built diagnostic. -/
def digestGuidanceText : String :=
  "Stage digest dependencies can be found here, https://werf.io/documentation/reference/stages_and_images.html#stage-dependencies.\n\nTo quickly find the problem compare current and previous rendered werf configurations.\nGet the path at the beginning of command output by the following prefix \x27Using werf config render file: \x27.\nE.g.:\n\n  diff /tmp/werf-config-render-502883762 /tmp/werf-config-render-837625028"

/-- Stages-removed possible-cause text of the should-be-built diagnostic. -/
def stagesRemovedReasonText : String :=
  "Stages have not been built yet or stages have been removed:\n- automatically with werf cleanup command\n- manually with werf purge, werf stages purge or werf host purge commands"

/-- `printShouldBeBuiltError` (build_phase.go): the warning lines emitted on a
cache miss in should-be-built mode.  The header names the missing stage and its
digest; the possible causes are numbered by a counter, the dockerfile cause
appearing first and only for dockerfile images. -/
def printShouldBeBuiltError (isDockerfileImage : Bool) (logDetailedName digest : String) :
    List String :=
  [logDetailedName ++ " with digest " ++ digest ++ " is not exist in stages storage",
   "There are some possible reasons:"] ++
  (if isDockerfileImage then ["(1) " ++ dockerfileReasonText] else []) ++
  [(if isDockerfileImage then "(2) " else "(1) ") ++ werfYamlReasonText,
   digestGuidanceText,
   (if isDockerfileImage then "(3) " else "(2) ") ++ stagesRemovedReasonText]

/-! ## `calculateStage` -/

/-- Environment of one `calculateStage` call: the stage's identity and the
results the conveyor, iterator and storage manager would return.  Functions of
the digest model calls whose argument is computed inside the handler. -/
structure CalcEnv where
  stageName : String
  logDetailedName : String
  isDockerfileImage : Bool
  getDependencies : Except String String
  prevNonEmptyStage : Option PrevStage
  nextStageDependencies : Except String String
  getStagesByDigest : String → Except String (List StageDescription)
  selectSuitableStage : List StageDescription → Except String (Option StageDescription)
  uuidNew : String

/-- Output of `calculateStage`: its result, the event trace and the stage state. -/
structure CalcOut where
  result : GoResult
  events : List BuildEvent
  stg : StageState

/-- The content-digest step at the end of `calculateStage`: a second
`calculateDigest` call with the current stage passed as the previous stage, a
failure being wrapped as "unable to calculate stage %s content digest". -/
def calculateStageContent (env : CalcEnv) (stageSig : String) (evs : List BuildEvent)
    (stg : StageState) : CalcOut :=
  match calculateDigest (env.stageName ++ "-content") ""
      (some { name := env.stageName, digest := stageSig,
              nextStageDependencies := env.nextStageDependencies }) with
  | .error e =>
    ⟨.err ("unable to calculate stage " ++ env.stageName ++ " content digest: " ++ e), evs, stg⟩
  | .ok contentSig => ⟨.ok, evs, { stg with contentDigest := some contentSig }⟩

/-- `calculateStage` (build_phase.go): gather dependencies, compute and record
the digest, lock the per-digest mutex (the unlock is the caller's deferred
duty), query storage by digest and select a suitable stage; bind a hydrated
image on a hit, fail with the diagnostic and "stages required" on a miss in
should-be-built mode, otherwise bind a fresh UUID-named image; finally compute
the content digest.  Every error is returned with the mutex still locked. -/
def calculateStage (env : CalcEnv) (stg0 : StageState) (shouldBeBuiltMode : Bool) : CalcOut :=
  match env.getDependencies with
  | .error e => ⟨.err e, [], stg0⟩
  | .ok stageDependencies =>
    match calculateDigest env.stageName stageDependencies env.prevNonEmptyStage with
    | .error e => ⟨.err e, [], stg0⟩
    | .ok stageSig =>
      let stg1 := { stg0 with digest := some stageSig }
      let ev1 := [BuildEvent.lockStageDigestMutex stageSig,
                  BuildEvent.getStagesByDigest stageSig]
      match env.getStagesByDigest stageSig with
      | .error e => ⟨.err e, ev1, stg1⟩
      | .ok stages =>
        let ev2 := ev1 ++ [BuildEvent.selectSuitableStage stageSig]
        match env.selectSuitableStage stages with
        | .error e => ⟨.err e, ev2, stg1⟩
        | .ok (some stageDesc) =>
          calculateStageContent env stageSig ev2
            { stg1 with
              image := some { name := stageDesc.info.name, stageDescription := some stageDesc } }
        | .ok none =>
          if shouldBeBuiltMode then
            ⟨.err "stages required",
             ev2 ++ [BuildEvent.shouldBeBuiltDiagnostic
               (printShouldBeBuiltError env.isDockerfileImage env.logDetailedName stageSig)],
             stg1⟩
          else
            calculateStageContent env stageSig
              (ev2 ++ [BuildEvent.createFreshStageImage env.uuidNew])
              { stg1 with image := some { name := env.uuidNew, stageDescription := none } }

/-! ## `atomicBuildStageImage` -/

/-- Environment of one `atomicBuildStageImage` call: identifiers used in error
messages and the results of the container-runtime build, the cross-process lock
and the storage-manager calls performed under it.  The optional test-hook
sleeps (environment variables) only delay execution and are not modelled. -/
structure AtomicEnv where
  projectName : String
  storageString : String
  build : Except String Unit
  lockStage : Except String Unit
  getStagesByDigest : String → Except String (List StageDescription)
  selectSuitableStage : List StageDescription → Except String (Option StageDescription)
  generateStageUniqueID : String → List StageDescription → String × String
  storeImage : Except String Unit
  getStageDescription : String → String → Except String StageDescription
  atomicStoreStagesByDigestToCache : Except String Unit

/-- Output of `atomicBuildStageImage`: result, event trace, stage state. -/
structure AtomicOut where
  result : GoResult
  events : List BuildEvent
  stg : StageState
deriving DecidableEq

/-- `atomicBuildStageImage` (build_phase.go): build the image, take the
cross-process lock on (project, digest) — released by defer on every later
path — re-query storage by digest and re-select; on a suitable hit discard the
fresh build and rebind to the existing description; otherwise rename the image
to a generated unique storage name, store it, read its description back and
append its stage ID after every prior candidate's into the digest cache. -/
def atomicBuildStageImage (env : AtomicEnv) (stageName logDetailedName : String)
    (stg : StageState) : AtomicOut :=
  let digest := stg.digest.getD ""
  match env.build with
  | .error e =>
    ⟨.err ("failed to build image for stage " ++ stageName ++ " with digest " ++ digest ++
       ": " ++ e),
     [BuildEvent.buildStage], stg⟩
  | .ok _ =>
    match env.lockStage with
    | .error e =>
      ⟨.err ("unable to lock project " ++ env.projectName ++ " digest " ++ digest ++ ": " ++ e),
       [BuildEvent.buildStage, BuildEvent.lockStage digest], stg⟩
    | .ok _ =>
      let inner : GoResult × List BuildEvent × StageState :=
        match env.getStagesByDigest digest with
        | .error e => (.err e, [BuildEvent.getStagesByDigest digest], stg)
        | .ok stages =>
          let ev1 := [BuildEvent.getStagesByDigest digest,
                      BuildEvent.selectSuitableStage digest]
          match env.selectSuitableStage stages with
          | .error e => (.err e, ev1, stg)
          | .ok (some stageDesc) =>
            (.ok, ev1,
             { stg with
               image := some { name := stageDesc.info.name,
                               stageDescription := some stageDesc } })
          | .ok none =>
            let generated := env.generateStageUniqueID digest stages
            let newStageImageName := generated.1
            let uniqueID := generated.2
            let ev2 := ev1 ++ [BuildEvent.generateStageUniqueID digest]
            match env.storeImage with
            | .error e =>
              (.err ("unable to store stage " ++ logDetailedName ++ " digest " ++ digest ++
                 " image " ++ newStageImageName ++ " into stages storage " ++
                 env.storageString ++ ": " ++ e),
               ev2 ++ [BuildEvent.storeImage newStageImageName], stg)
            | .ok _ =>
              let ev3 := ev2 ++ [BuildEvent.storeImage newStageImageName,
                                 BuildEvent.getStageDescription digest uniqueID]
              match env.getStageDescription digest uniqueID with
              | .error e =>
                (.err ("unable to get stage " ++ logDetailedName ++ " digest " ++ digest ++
                   " image " ++ newStageImageName ++ " description from stages storage " ++
                   env.storageString ++ " after stages has been stored into stages storage: " ++
                   e),
                 ev3, stg)
              | .ok desc =>
                let stageIDs := stages.map (fun d => d.stageID) ++ [desc.stageID]
                (goOf env.atomicStoreStagesByDigestToCache,
                 ev3 ++ [BuildEvent.atomicStoreStagesByDigestToCache stageName digest stageIDs],
                 { stg with
                   image := some { name := newStageImageName, stageDescription := some desc } })
      ⟨inner.1,
       BuildEvent.buildStage :: BuildEvent.lockStage digest ::
         (inner.2.1 ++ [BuildEvent.unlockStage digest]),
       inner.2.2⟩

/-! ## `onImageStage` and the surrounding steps -/

/-- Environment of one `onImageStage` call: the `calculateStage` environment,
the results of the steps around it, and the iterator-invariant flags checked by
the handler's panics (the image's base-image name appears in one message). -/
structure OnStageEnv where
  calcEnv : CalcEnv
  fetchDependencies : Except String Unit
  baseImageName : String
  prevNonEmptyStageNil : Bool
  prevBuiltStageNil : Bool
  prevBuiltNePrevNonEmpty : Bool
  introspectRequested : Bool
  introspectRes : Except String Unit
  fetchBaseImage : Except String Unit
  fetchStagePrevBuilt : Except String Unit
  prepareImage : Except String Unit
  stapelContainer : Except String Unit
  preRunHook : Except String Unit
  atomic : AtomicEnv

/-- Output of `onImageStage`: result, event trace, phase and stage state. -/
structure OnStageOut where
  result : GoResult
  events : List BuildEvent
  phase : PhaseState
  stg : StageState
deriving DecidableEq

/-- `fetchBaseImageForStage` (build_phase.go): the "from" stage fetches the
declared base image, the "dockerfile" stage skips, other stages ask the
storage manager to fetch the previous built stage. -/
def fetchBaseImageForStage (env : OnStageEnv) : Except String Unit × List BuildEvent :=
  if env.calcEnv.stageName = "from" then
    (match env.fetchBaseImage with
     | .error e =>
       .error ("unable to fetch base image " ++ env.baseImageName ++ " for stage " ++
         env.calcEnv.logDetailedName ++ ": " ++ e)
     | .ok _ => .ok (),
     [BuildEvent.fetchBaseImage])
  else if env.calcEnv.stageName = "dockerfile" then (.ok (), [])
  else (env.fetchStagePrevBuilt, [BuildEvent.fetchStagePrevBuilt])

/-- `prepareStageInstructions` (build_phase.go): service labels, build args and
ssh-auth options are attached to the in-memory image configuration (invisible
to the event trace); the stage's own `PrepareImage` hook may fail. -/
def prepareStageInstructions (env : OnStageEnv) : Except String Unit × List BuildEvent :=
  (match env.prepareImage with
   | .error e => .error ("error preparing stage " ++ env.calcEnv.stageName ++ ": " ++ e)
   | .ok _ => .ok (),
   [BuildEvent.prepareStage])

/-- `buildStage` (build_phase.go): ensure the stapel service container for
non-dockerfile images, run the stage's `PreRunHook`, then
`atomicBuildStageImage`; introspect afterwards when requested. -/
def buildStage (env : OnStageEnv) (stg : StageState) : GoResult × List BuildEvent × StageState :=
  match (if env.calcEnv.isDockerfileImage then Except.ok () else env.stapelContainer) with
  | .error e => (.err ("get or create stapel container failed: " ++ e), [], stg)
  | .ok _ =>
    match env.preRunHook with
    | .error e => (.err (env.calcEnv.logDetailedName ++ " preRunHook failed: " ++ e), [], stg)
    | .ok _ =>
      let a := atomicBuildStageImage env.atomic env.calcEnv.stageName env.calcEnv.logDetailedName stg
      match a.result with
      | .ok =>
        if env.introspectRequested then
          (goOf env.introspectRes, a.events ++ [BuildEvent.introspect], a.stg)
        else (.ok, a.events, a.stg)
      | r => (r, a.events, a.stg)

/-- The cache-miss tail of `onImageStage`: fetch the base image, prepare the
instructions, build, check the built description and flip
`ShouldAddManagedImageRecord`.  `pre` is the trace so far and `unlockEv` the
deferred in-process mutex unlock appended at every return. -/
def onImageStageBuildPath (env : OnStageEnv) (phase : PhaseState) (stg : StageState)
    (pre : List BuildEvent) (unlockEv : BuildEvent) : OnStageOut :=
  let fb := fetchBaseImageForStage env
  match fb.1 with
  | .error e => ⟨.err e, pre ++ fb.2 ++ [unlockEv], phase, stg⟩
  | .ok _ =>
    let pr := prepareStageInstructions env
    match pr.1 with
    | .error e => ⟨.err e, pre ++ fb.2 ++ pr.2 ++ [unlockEv], phase, stg⟩
    | .ok _ =>
      let b := buildStage env stg
      match b.1 with
      | .ok =>
        if ((b.2.2.image.bind (fun i => i.stageDescription)).isNone) then
          ⟨.panicked ("expected stage " ++ env.calcEnv.stageName ++ " built image info to be set!"),
           pre ++ fb.2 ++ pr.2 ++ b.2.1, phase, b.2.2⟩
        else
          ⟨.ok, pre ++ fb.2 ++ pr.2 ++ b.2.1 ++ [unlockEv],
           { phase with shouldAddManagedImageRecord := true }, b.2.2⟩
      | r => ⟨r, pre ++ fb.2 ++ pr.2 ++ b.2.1 ++ [unlockEv], phase, b.2.2⟩

/-- The normal-mode continuation of `onImageStage` after the iterator-invariant
checks: run `calculateStage`, return for a cached stage, else build. -/
def onImageStageCalculated (env : OnStageEnv) (phase : PhaseState) (stg0 : StageState) :
    OnStageOut :=
  let c := calculateStage env.calcEnv stg0 false
  match c.result with
  | .ok =>
    let unlockEv := BuildEvent.unlockStageDigestMutex (c.stg.digest.getD "")
    let pre := BuildEvent.fetchDependencies :: c.events
    if ((c.stg.image.bind (fun i => i.stageDescription)).isSome) then
      if env.introspectRequested then
        ⟨goOf env.introspectRes, pre ++ [BuildEvent.introspect, unlockEv], phase, c.stg⟩
      else ⟨.ok, pre ++ [unlockEv], phase, c.stg⟩
    else onImageStageBuildPath env phase c.stg pre unlockEv
  | r => ⟨r, BuildEvent.fetchDependencies :: c.events, phase, c.stg⟩

/-- `onImageStage` (build_phase.go): empty stages return immediately; otherwise
fetch dependencies, and in should-be-built mode run `calculateStage` strictly —
the deferred mutex unlock is registered only after it returns nil.  In normal
mode the iterator invariants are asserted, `calculateStage` runs, a cached
stage returns after optional introspection, and a miss goes through the build
path; the deferred unlock again only guards the paths after a nil
`calculateStage`. -/
def onImageStage (env : OnStageEnv) (phase : PhaseState) (stg0 : StageState)
    (isEmpty : Bool) : OnStageOut :=
  if isEmpty then ⟨.ok, [], phase, stg0⟩
  else
    match env.fetchDependencies with
    | .error e =>
      ⟨.err ("unable to fetch dependencies for stage " ++ env.calcEnv.logDetailedName ++ ": " ++ e),
       [BuildEvent.fetchDependencies], phase, stg0⟩
    | .ok _ =>
      if phase.shouldBeBuiltMode then
        let c := calculateStage env.calcEnv stg0 true
        match c.result with
        | .ok =>
          ⟨.ok,
           BuildEvent.fetchDependencies ::
             (c.events ++ [BuildEvent.unlockStageDigestMutex (c.stg.digest.getD "")]),
           phase, c.stg⟩
        | r => ⟨r, BuildEvent.fetchDependencies :: c.events, phase, c.stg⟩
      else
        if env.calcEnv.stageName ≠ "from" ∧ env.calcEnv.stageName ≠ "dockerfile" then
          if env.prevNonEmptyStageNil then
            ⟨.panicked "expected PrevNonEmptyStage to be set", [BuildEvent.fetchDependencies],
             phase, stg0⟩
          else if env.prevBuiltStageNil then
            ⟨.panicked "expected PrevBuiltStage to be set", [BuildEvent.fetchDependencies],
             phase, stg0⟩
          else if env.prevBuiltNePrevNonEmpty then
            ⟨.panicked "expected PrevBuiltStage to equal PrevNonEmptyStage",
             [BuildEvent.fetchDependencies], phase, stg0⟩
          else onImageStageCalculated env phase stg0
        else onImageStageCalculated env phase stg0


/-! ## The images report (`createReport`, `ImagesReport`) -/

/-- `ReportImageRecord` (build_phase.go). -/
structure ReportImageRecord where
  WerfImageName : String
  DockerRepo : String
  DockerTag : String
  DockerImageID : String
deriving DecidableEq

/-- The report-relevant view of one conveyor image: its name, its artifact
flag, and the image info of its last non-empty stage's description. -/
structure ConveyorImage where
  name : String
  isArtifact : Bool
  lastStageInfo : ImageInfo
deriving DecidableEq

/-- Go map assignment `m[name] = rec` on an association list: replace the
value at an existing key, else append the new pair. -/
def setImageRecord (m : List (String × ReportImageRecord)) (name : String)
    (rec : ReportImageRecord) : List (String × ReportImageRecord) :=
  match m with
  | [] => [(name, rec)]
  | p :: rest =>
    if p.1 = name then (name, rec) :: rest else p :: setImageRecord rest name rec

/-- Lookup in the report map. -/
def lookupRecord (m : List (String × ReportImageRecord)) (name : String) :
    Option ReportImageRecord :=
  match m with
  | [] => none
  | p :: rest => if p.1 = name then some p.2 else lookupRecord rest name

/-- The record stored for an image: the last non-empty stage's name,
repository, tag and docker image ID. -/
def reportRecordOf (info : ImageInfo) : ReportImageRecord :=
  { WerfImageName := info.name, DockerRepo := info.repository, DockerTag := info.tag,
    DockerImageID := info.id }

/-- The map-filling loop of `createReport` (build_phase.go): iterate the
conveyor's images, skip artifacts, and set one record per remaining image
keyed by its name, starting from the empty map of `NewBuildPhase`. -/
def createReportImages (images : List ConveyorImage) : List (String × ReportImageRecord) :=
  images.foldl
    (fun acc img =>
      if img.isArtifact then acc
      else setImageRecord acc img.name (reportRecordOf img.lastStageInfo))
    []

/-- Escape one character for a JSON string (quote and backslash; the model
keeps other characters verbatim). -/
def jsonEscapeChar (c : Char) : List Char :=
  if c = '"' then ['\\', '"'] else if c = '\\' then ['\\', '\\'] else [c]

/-- A JSON string literal. -/
def jsonQuote (s : String) : String :=
  "\"" ++ String.mk ((s.data.map jsonEscapeChar).flatten) ++ "\""

/-- Insertion sort of report entries by key, modelling Go's sorted map keys. -/
def insertByKey (p : String × ReportImageRecord) (m : List (String × ReportImageRecord)) :
    List (String × ReportImageRecord) :=
  match m with
  | [] => [p]
  | q :: rest => if p.1 ≤ q.1 then p :: q :: rest else q :: insertByKey p rest

/-- Sorted report entries. -/
def sortByKey (m : List (String × ReportImageRecord)) : List (String × ReportImageRecord) :=
  match m with
  | [] => []
  | p :: rest => insertByKey p (sortByKey rest)

/-- One record object of the report JSON, tab-indented at depth `ind`. -/
def recordJson (ind : String) (r : ReportImageRecord) : String :=
  "\x7b\n" ++
  ind ++ "\t\"WerfImageName\": " ++ jsonQuote r.WerfImageName ++ ",\n" ++
  ind ++ "\t\"DockerRepo\": " ++ jsonQuote r.DockerRepo ++ ",\n" ++
  ind ++ "\t\"DockerTag\": " ++ jsonQuote r.DockerTag ++ ",\n" ++
  ind ++ "\t\"DockerImageID\": " ++ jsonQuote r.DockerImageID ++ "\n" ++
  ind ++ "\x7d"

/-- Modelled from the spec: `ImagesReport.ToJson` delegates to Go
`json.MarshalIndent(report, "", "\t")` (standard library, not under src/) —
"UTF-8 JSON, tab-indented", "includes a top-level `Images` object".  Keys are
emitted sorted as Go maps marshal; the output never ends in a newline (its
last character is the closing brace of the top-level object). -/
def marshalImagesReport (m : List (String × ReportImageRecord)) : String :=
  let entries := (sortByKey m).map (fun p => "\t\t" ++ jsonQuote p.1 ++ ": " ++ recordJson "\t\t" p.2)
  let imagesObj :=
    if entries.isEmpty then "\x7b\x7d"
    else "\x7b\n" ++ String.intercalate ",\n" entries ++ "\n\t\x7d"
  "\x7b\n\t\"Images\": " ++ imagesObj ++ "\n\x7d"

/-- `ReportFormat` (build_phase.go). -/
def ReportFormat : Type := String

/-- The one defined report format constant, `ReportJSON = "json"`. -/
def ReportJSON : String := "json"

/-- A file written by the phase: path, permission bits, content. -/
structure FileWrite where
  path : String
  perm : Nat
  content : String
deriving DecidableEq

/-- The file-writing tail of `createReport` (build_phase.go): marshal the
report; when a report path is set and the format is `json`, write the JSON
plus one appended newline to that path with mode 0644; otherwise write
nothing. -/
def createReport (reportPath reportFormat : String) (images : List ConveyorImage) :
    Option FileWrite :=
  let data := marshalImagesReport (createReportImages images)
  if reportPath ≠ "" ∧ reportFormat = ReportJSON then
    some { path := reportPath, perm := 0o644, content := data ++ "\n" }
  else none

/-! ## Container-driver retry loops (pkg/docker/image.go) -/

/-- Whether a character list starts with a pattern. -/
def charsStartWith : List Char → List Char → Bool
  | [], _ => true
  | _ :: _, [] => false
  | a :: as, b :: bs => a == b && charsStartWith as bs

/-- Whether a character list contains a pattern as a contiguous run. -/
def charsContain : List Char → List Char → Bool
  | [], pat => pat.isEmpty
  | b :: rest, pat => charsStartWith pat (b :: rest) || charsContain rest pat

/-- Go `strings.Contains(s, pat)`: the pattern occurs somewhere in `s`. -/
def strContains (s pat : String) : Bool :=
  charsContain s.data pat.data

/-- `cliPullMaxAttempts` (image.go). -/
def cliPullMaxAttempts : Nat := 5

/-- `cliPushMaxAttempts` (image.go). -/
def cliPushMaxAttempts : Nat := 10

/-- The transient-error substrings retried by `doCliPullWithRetries`. -/
def pullSpecificErrors : List String :=
  ["Client.Timeout exceeded while awaiting headers",
   "TLS handshake timeout",
   "i/o timeout",
   "504 Gateway Time-out",
   "504 Gateway Timeout",
   "Internal Server Error"]

/-- The transient-error substrings retried by `doCliPushWithRetries`. -/
def pushSpecificErrors : List String :=
  ["Client.Timeout exceeded while awaiting headers",
   "TLS handshake timeout",
   "i/o timeout",
   "Only schema version 2 is supported",
   "504 Gateway Time-out",
   "504 Gateway Timeout",
   "Internal Server Error"]

/-- The shared retry loop of `doCliPullWithRetries` / `doCliPushWithRetries`:
`call k` is the error of the k-th pull/push invocation (`none` = success) and
`randDraw k` the k-th `rand.Intn(30-15)` draw (a value `< 15`).  `remaining`
counts the retries still allowed (`maxAttempts - attempt`, so the Go guard
`attempt < maxAttempts` is `remaining > 0`).  On a retryable error with
retries remaining the loop sleeps `randDraw attempt + 15` seconds — recorded
in the returned list — and retries; otherwise it returns the error. -/
def retryLoop (specificErrors : List String) (call : Nat → Option String)
    (randDraw : Nat → Nat) : Nat → Nat → Option String × List Nat
  | attempt, 0 => (call attempt, [])
  | attempt, remaining + 1 =>
    match call attempt with
    | none => (none, [])
    | some e =>
      if specificErrors.any (fun sp => strContains e sp) then
        let seconds := randDraw attempt + 15
        let rest := retryLoop specificErrors call randDraw (attempt + 1) remaining
        (rest.1, seconds :: rest.2)
      else (some e, [])

/-- `doCliPullWithRetries` (image.go): at most 5 retries. Returns the final
result and the list of sleeps performed. -/
def doCliPullWithRetries (call : Nat → Option String) (randDraw : Nat → Nat) :
    Option String × List Nat :=
  retryLoop pullSpecificErrors call randDraw 0 cliPullMaxAttempts

/-- `doCliPushWithRetries` (image.go): at most 10 retries. Returns the final
result and the list of sleeps performed. -/
def doCliPushWithRetries (call : Nat → Option String) (randDraw : Nat → Nat) :
    Option String × List Nat :=
  retryLoop pushSpecificErrors call randDraw 0 cliPushMaxAttempts

/-! ## `publishImageMetadata`, `addManagedImage`, `AfterImageStages` -/

/-- The local git repository as `publishImageMetadata` consults it. -/
structure GitRepo where
  headCommit : Except String String

/-- Environment of one `publishImageMetadata` call. -/
structure PublishEnv where
  projectName : String
  imageName : String
  stageID : String
  localGitRepo : Option GitRepo
  isImageMetadataExist : Except String Bool
  putImageMetadata : Except String Unit

/-- `publishImageMetadata` (build_phase.go): with no local git repository it
returns nil at once; otherwise it reads the head commit, asks storage whether
metadata for (project, image, commit, stage ID) exists, and writes it only
when absent. -/
def publishImageMetadata (env : PublishEnv) : GoResult × List BuildEvent :=
  match env.localGitRepo with
  | none => (.ok, [])
  | some repo =>
    match repo.headCommit with
    | .error e => (.err e, [BuildEvent.headCommit])
    | .ok commit =>
      let checkEv := [BuildEvent.headCommit,
        BuildEvent.isImageMetadataExist env.projectName env.imageName commit env.stageID]
      match env.isImageMetadataExist with
      | .error e =>
        (.err ("unable to get image " ++ env.imageName ++ " metadata by commit " ++ commit ++
           " and stage ID " ++ env.stageID ++ ": " ++ e),
         checkEv)
      | .ok true => (.ok, checkEv)
      | .ok false =>
        (goOf env.putImageMetadata,
         checkEv ++
           [BuildEvent.putImageMetadata env.projectName env.imageName commit env.stageID])

/-- Environment of one `AfterImageStages` call for a given image. -/
structure AfterEnv where
  isArtifact : Bool
  shouldAddManagedImageRecord : Bool
  addManagedImage : Except String Unit
  publish : PublishEnv

/-- `addManagedImage` (build_phase.go): when at least one stage was newly
built, register the image as managed. -/
def addManagedImageStep (env : AfterEnv) : GoResult × List BuildEvent :=
  if env.shouldAddManagedImageRecord then
    (match env.addManagedImage with
     | .error e =>
       GoResult.err ("unable to add image " ++ env.publish.imageName ++
         " to the managed images of project " ++ env.publish.projectName ++ ": " ++ e)
     | .ok _ => GoResult.ok,
     [BuildEvent.addManagedImage env.publish.projectName env.publish.imageName])
  else (.ok, [])

/-- `AfterImageStages` (build_phase.go) after its in-memory bookkeeping
(`SetLastNonEmptyStage`, `SetContentDigest`): artifacts stop here; other
images conditionally register the managed-image record, then publish the
image's git metadata. -/
def afterImageStages (env : AfterEnv) : GoResult × List BuildEvent :=
  if env.isArtifact then (.ok, [])
  else
    let m := addManagedImageStep env
    match m.1 with
    | .ok =>
      let p := publishImageMetadata env.publish
      (p.1, m.2 ++ p.2)
    | r => (r, m.2)

/-! ## Concrete sample inputs used by witnesses -/

/-- A sample image info. -/
def sampleInfo : ImageInfo :=
  ⟨"repo/image:tag-1", "repo/image", "tag-1", "sha256:aaa"⟩

/-- A sample stored stage description. -/
def sampleDesc : StageDescription := ⟨sampleInfo, ⟨"digest-1", "1111"⟩⟩

/-- A second sample stage description sharing the digest. -/
def sampleDesc2 : StageDescription :=
  ⟨⟨"repo/image:tag-2", "repo/image", "tag-2", "sha256:bbb"⟩, ⟨"digest-1", "2222"⟩⟩

/-- A sample stage state after `calculateStage` bound a fresh image. -/
def sampleStg : StageState := ⟨some "digest-1", none, some ⟨"uuid-0", none⟩⟩

/-- A sample atomic-build environment in which the under-lock re-selection
finds a suitable stage. -/
def sampleAtomicEnvHit : AtomicEnv :=
  ⟨"proj", "storage", .ok (), .ok (), fun _ => .ok [sampleDesc],
   fun _ => .ok (some sampleDesc), fun _ _ => ("repo/image:new", "3333"), .ok (),
   fun _ _ => .ok sampleDesc2, .ok ()⟩

/-- A sample atomic-build environment in which the under-lock re-selection
finds nothing and the freshly built image is published. -/
def sampleAtomicEnvMiss : AtomicEnv :=
  ⟨"proj", "storage", .ok (), .ok (), fun _ => .ok [sampleDesc], fun _ => .ok none,
   fun _ _ => ("repo/image:new", "3333"), .ok (), fun _ _ => .ok sampleDesc2, .ok ()⟩

/-- A sample `calculateStage` environment: no previous stage, empty storage,
no suitable stage. -/
def sampleCalcEnv : CalcEnv :=
  ⟨"install", "stage install", false, .ok "deps", none, .ok "", fun _ => .ok [],
   fun _ => .ok none, "uuid-1"⟩

/-- A sample `onImageStage` environment built on `sampleCalcEnv`. -/
def sampleOnStageEnv : OnStageEnv :=
  ⟨sampleCalcEnv, .ok (), "base", false, false, false, false, .ok (), .ok (), .ok (),
   .ok (), .ok (), .ok (), sampleAtomicEnvHit⟩

/-! # Theorems -/

/-! ## SHA3-224 ground truth -/

set_option maxRecDepth 100000 in
/-- SHA3-224 of the empty message, checked against the published test vector. -/
theorem sha3_224Bytes_empty_vector :
    hexEncode (sha3_224Bytes []) =
      "6b4e03423667dbb73b6e15454f0eb1abd4597f9a1b078e3f5b5a6bc7" := by
  decide

set_option maxRecDepth 100000 in
/-- The modelled digest hash on a sample argument list, checked against a
reference SHA3-224 implementation applied to the joined arguments. -/
theorem Sha3_224Hash_sample_vector :
    Sha3_224Hash ["1.1", "from", "deps"] =
      "e69b7098e95373d92c433936a66d70326a8217b52601b6218d552105" := by
  decide

/-! ## Hex output shape -/

/-- The hex encoding of a byte list has twice its length. -/
theorem hexEncode_length (bs : List Nat) : (hexEncode bs).length = 2 * bs.length := by
  show ((bs.map (fun b => [hexDigitChar (b / 16), hexDigitChar (b % 16)])).flatten).length = _
  induction bs with
  | nil => rfl
  | cons b rest ih => simpa [ih] using by omega

/-- SHA3-224 squeezes exactly 28 bytes. -/
theorem sha3_224Bytes_length (msg : List Nat) : (sha3_224Bytes msg).length = 28 := by
  simp [sha3_224Bytes]

/-- Every squeezed byte is below 256. -/
theorem sha3_224Bytes_lt (msg : List Nat) : ∀ b ∈ sha3_224Bytes msg, b < 256 := by
  intro b hb
  simp only [sha3_224Bytes, List.mem_map, List.mem_range] at hb
  obtain ⟨i, _, heq⟩ := hb
  omega

/-- Every hex digit of an index below 16 is a lowercase hex character. -/
theorem hexDigitChar_lower : ∀ n < 16, isLowerHexDigit (hexDigitChar n) = true := by
  decide

/-- Hex encoding of bytes yields only lowercase hex characters. -/
theorem hexEncode_lower (bs : List Nat) (hb : ∀ b ∈ bs, b < 256) :
    ∀ c ∈ (hexEncode bs).data, isLowerHexDigit c = true := by
  intro c hc
  have hc2 : c ∈ (bs.map (fun b => [hexDigitChar (b / 16), hexDigitChar (b % 16)])).flatten := hc
  rw [List.mem_flatten] at hc2
  obtain ⟨l, hl, hcl⟩ := hc2
  rw [List.mem_map] at hl
  obtain ⟨b, hbmem, rfl⟩ := hl
  have hblt : b < 256 := hb b hbmem
  have h1 : b / 16 < 16 := by omega
  have h2 : b % 16 < 16 := by omega
  simp only [List.mem_cons, List.not_mem_nil, or_false] at hcl
  rcases hcl with rfl | rfl
  · exact hexDigitChar_lower _ h1
  · exact hexDigitChar_lower _ h2

/-- The modelled hash always emits 56 lowercase hex characters. -/
theorem Sha3_224Hash_shape (args : List String) :
    (Sha3_224Hash args).length = 56 ∧
      ∀ c ∈ (Sha3_224Hash args).data, isLowerHexDigit c = true := by
  constructor
  · show (hexEncode (sha3_224Bytes _)).length = 56
    rw [hexEncode_length, sha3_224Bytes_length]
  · exact hexEncode_lower _ (sha3_224Bytes_lt _)

/-! ## C1 -/

/-- C1: for every stage, `calculateDigest` hashes exactly the build-cache
version, the stage name and the stage dependency string — extended, when a
previous non-empty stage exists, by that stage's digest and then its
`GetNextStageDependencies` result — with SHA3-224 in lowercase hex (56
characters); the digest is a pure function of exactly those inputs, so two
previous stages agreeing on them give byte-identical digests. -/
theorem calculateDigest_matches_spec :
    (∀ stageName stageDeps : String,
      calculateDigest stageName stageDeps none =
        .ok (Sha3_224Hash [BuildCacheVersion, stageName, stageDeps]))
    ∧ (∀ (stageName stageDeps : String) (prev : PrevStage) (prevDeps : String),
        prev.nextStageDependencies = .ok prevDeps →
        calculateDigest stageName stageDeps (some prev) =
          .ok (Sha3_224Hash
            [BuildCacheVersion, stageName, stageDeps, prev.digest, prevDeps]))
    ∧ (∀ (stageName stageDeps : String) (p q : PrevStage) (prevDeps : String),
        p.digest = q.digest → p.nextStageDependencies = .ok prevDeps →
        q.nextStageDependencies = .ok prevDeps →
        calculateDigest stageName stageDeps (some p) =
          calculateDigest stageName stageDeps (some q))
    ∧ (∀ args, (Sha3_224Hash args).length = 56 ∧
        ∀ c ∈ (Sha3_224Hash args).data, isLowerHexDigit c = true) := by
  refine ⟨fun _ _ => rfl, ?_, ?_, fun args => Sha3_224Hash_shape args⟩
  · intro stageName stageDeps prev prevDeps h
    simp [calculateDigest, h]
  · intro stageName stageDeps p q prevDeps hdig hp hq
    simp [calculateDigest, hp, hq, hdig]

/-- C1 witness: the previous-stage equation discharged on concrete inputs. -/
theorem calculateDigest_matches_spec_witness :
    (PrevStage.mk "from" "d0" (Except.ok "nd")).nextStageDependencies = Except.ok "nd" ∧
    calculateDigest "install" "deps" (some (PrevStage.mk "from" "d0" (Except.ok "nd"))) =
      .ok (Sha3_224Hash [BuildCacheVersion, "install", "deps", "d0", "nd"]) :=
  ⟨rfl, calculateDigest_matches_spec.2.1 "install" "deps"
    (PrevStage.mk "from" "d0" (Except.ok "nd")) "nd" rfl⟩

/-! ## C9 -/

/-- C9: an empty stage makes `onImageStage` return nil immediately: no call is
performed (the event trace is empty, so no dependency fetch, digest work, lock,
storage query or build), and the phase state and stage state observable by
later stages are returned unchanged. -/
theorem onImageStage_empty_noop (env : OnStageEnv) (phase : PhaseState) (stg : StageState) :
    onImageStage env phase stg true = ⟨.ok, [], phase, stg⟩ := by
  rfl

/-! ## C4 -/

/-- C4: in should-be-built mode, when no suitable cached stage exists for the
computed digest, the handler emits the diagnostic — naming the missing stage
and digest with the numbered possible causes — and returns the error "stages
required"; the trace shows it never creates a fresh stage image and never
builds. -/
theorem onImageStage_should_be_built_miss
    (env : OnStageEnv) (phase : PhaseState) (stg0 : StageState)
    (deps d : String) (stages : List StageDescription)
    (hm : phase.shouldBeBuiltMode = true)
    (hf : env.fetchDependencies = .ok ())
    (hd : env.calcEnv.getDependencies = .ok deps)
    (hsig : calculateDigest env.calcEnv.stageName deps env.calcEnv.prevNonEmptyStage = .ok d)
    (hg : env.calcEnv.getStagesByDigest d = .ok stages)
    (hs : env.calcEnv.selectSuitableStage stages = .ok none) :
    onImageStage env phase stg0 false =
      ⟨.err "stages required",
       [.fetchDependencies, .lockStageDigestMutex d, .getStagesByDigest d,
        .selectSuitableStage d,
        .shouldBeBuiltDiagnostic
          (printShouldBeBuiltError env.calcEnv.isDockerfileImage env.calcEnv.logDetailedName d)],
       phase, { stg0 with digest := some d }⟩
    ∧ (onImageStage env phase stg0 false).events.all
        (fun e => !(isCreateFreshEvent e || isBuildEvent e)) = true := by
  have h1 : onImageStage env phase stg0 false =
      ⟨.err "stages required",
       [.fetchDependencies, .lockStageDigestMutex d, .getStagesByDigest d,
        .selectSuitableStage d,
        .shouldBeBuiltDiagnostic
          (printShouldBeBuiltError env.calcEnv.isDockerfileImage env.calcEnv.logDetailedName d)],
       phase, { stg0 with digest := some d }⟩ := by
    simp [onImageStage, calculateStage, hm, hf, hd, hsig, hg, hs]
  refine ⟨h1, ?_⟩
  rw [h1]
  simp [isCreateFreshEvent, isBuildEvent]

/-- C4 witness: the hypotheses discharged on the sample environment (no
previous stage, empty storage, no suitable stage). -/
theorem onImageStage_should_be_built_miss_witness :
    sampleOnStageEnv.calcEnv.selectSuitableStage [] = .ok none ∧
    (onImageStage sampleOnStageEnv ⟨true, false⟩ ⟨none, none, none⟩ false =
      ⟨.err "stages required",
       [.fetchDependencies,
        .lockStageDigestMutex (Sha3_224Hash [BuildCacheVersion, "install", "deps"]),
        .getStagesByDigest (Sha3_224Hash [BuildCacheVersion, "install", "deps"]),
        .selectSuitableStage (Sha3_224Hash [BuildCacheVersion, "install", "deps"]),
        .shouldBeBuiltDiagnostic
          (printShouldBeBuiltError sampleOnStageEnv.calcEnv.isDockerfileImage
            sampleOnStageEnv.calcEnv.logDetailedName
            (Sha3_224Hash [BuildCacheVersion, "install", "deps"]))],
       ⟨true, false⟩,
       { (⟨none, none, none⟩ : StageState) with
         digest := some (Sha3_224Hash [BuildCacheVersion, "install", "deps"]) }⟩
    ∧ (onImageStage sampleOnStageEnv ⟨true, false⟩ ⟨none, none, none⟩ false).events.all
        (fun e => !(isCreateFreshEvent e || isBuildEvent e)) = true) :=
  ⟨rfl, onImageStage_should_be_built_miss sampleOnStageEnv ⟨true, false⟩ ⟨none, none, none⟩
    "deps" (Sha3_224Hash [BuildCacheVersion, "install", "deps"]) []
    rfl rfl rfl rfl rfl rfl⟩

/-! ## C3 -/

/-- C3 is refuted by the code: on the should-be-built cache-miss path the
per-digest mutex is locked inside `calculateStage`, `calculateStage` returns
the "stages required" error, and `onImageStage` returns that error before the
deferred unlock is ever registered — the trace of the handler contains the
mutex lock and no mutex unlock. -/
theorem onImageStage_mutex_leak :
    (onImageStage sampleOnStageEnv ⟨true, false⟩ ⟨none, none, none⟩ false).result =
      .err "stages required" ∧
    (onImageStage sampleOnStageEnv ⟨true, false⟩ ⟨none, none, none⟩ false).events.any
      isLockMutexEvent = true ∧
    (onImageStage sampleOnStageEnv ⟨true, false⟩ ⟨none, none, none⟩ false).events.all
      (fun e => !isUnlockMutexEvent e) = true := by
  refine ⟨rfl, rfl, rfl⟩

/-! ## C2 -/

/-- C2: after the build, under the cross-process lock, storage is re-queried by
digest and suitability re-selected; when a suitable stage description now
exists the function rebinds the stage to an image carrying that description and
returns nil, and its trace shows no `StoreImage`, no `GenerateStageUniqueID`
and no digest-cache write — the freshly built image is discarded. -/
theorem atomicBuildStageImage_discards_on_race
    (env : AtomicEnv) (stageName logDetailedName : String) (stg : StageState)
    (stages : List StageDescription) (desc : StageDescription)
    (hb : env.build = .ok ()) (hl : env.lockStage = .ok ())
    (hg : env.getStagesByDigest (stg.digest.getD "") = .ok stages)
    (hs : env.selectSuitableStage stages = .ok (some desc)) :
    atomicBuildStageImage env stageName logDetailedName stg =
      ⟨.ok,
       [.buildStage, .lockStage (stg.digest.getD ""), .getStagesByDigest (stg.digest.getD ""),
        .selectSuitableStage (stg.digest.getD ""), .unlockStage (stg.digest.getD "")],
       { stg with image := some ⟨desc.info.name, some desc⟩ }⟩
    ∧ (atomicBuildStageImage env stageName logDetailedName stg).events.all
        (fun e => !isPublishEvent e) = true := by
  have h1 : atomicBuildStageImage env stageName logDetailedName stg =
      ⟨.ok,
       [.buildStage, .lockStage (stg.digest.getD ""), .getStagesByDigest (stg.digest.getD ""),
        .selectSuitableStage (stg.digest.getD ""), .unlockStage (stg.digest.getD "")],
       { stg with image := some ⟨desc.info.name, some desc⟩ }⟩ := by
    simp [atomicBuildStageImage, hb, hl, hg, hs]
  refine ⟨h1, ?_⟩
  rw [h1]
  simp [isPublishEvent]

/-- C2 witness: the race-path hypotheses discharged on the sample environment
whose under-lock re-selection returns a suitable description. -/
theorem atomicBuildStageImage_discards_on_race_witness :
    sampleAtomicEnvHit.selectSuitableStage [sampleDesc] = .ok (some sampleDesc) ∧
    (atomicBuildStageImage sampleAtomicEnvHit "install" "stage install" sampleStg =
      ⟨.ok,
       [.buildStage, .lockStage "digest-1", .getStagesByDigest "digest-1",
        .selectSuitableStage "digest-1", .unlockStage "digest-1"],
       { sampleStg with image := some ⟨sampleDesc.info.name, some sampleDesc⟩ }⟩
    ∧ (atomicBuildStageImage sampleAtomicEnvHit "install" "stage install" sampleStg).events.all
        (fun e => !isPublishEvent e) = true) :=
  ⟨rfl, atomicBuildStageImage_discards_on_race sampleAtomicEnvHit "install" "stage install"
    sampleStg [sampleDesc] sampleDesc rfl rfl rfl rfl⟩

/-! ## C5 -/

/-- C5: on the publish path (no suitable stage under the cross-process lock),
the digest-cache write receives exactly the stage ID of every candidate
returned by the under-lock `GetStagesByDigest` query, in order, followed by the
stage ID of the newly stored image. -/
theorem atomicBuildStageImage_cache_stage_ids
    (env : AtomicEnv) (stageName logDetailedName : String) (stg : StageState)
    (stages : List StageDescription) (newDesc : StageDescription)
    (hb : env.build = .ok ()) (hl : env.lockStage = .ok ())
    (hg : env.getStagesByDigest (stg.digest.getD "") = .ok stages)
    (hs : env.selectSuitableStage stages = .ok none)
    (hst : env.storeImage = .ok ())
    (hd : env.getStageDescription (stg.digest.getD "")
      (env.generateStageUniqueID (stg.digest.getD "") stages).2 = .ok newDesc) :
    atomicBuildStageImage env stageName logDetailedName stg =
      ⟨goOf env.atomicStoreStagesByDigestToCache,
       [.buildStage, .lockStage (stg.digest.getD ""), .getStagesByDigest (stg.digest.getD ""),
        .selectSuitableStage (stg.digest.getD ""),
        .generateStageUniqueID (stg.digest.getD ""),
        .storeImage (env.generateStageUniqueID (stg.digest.getD "") stages).1,
        .getStageDescription (stg.digest.getD "")
          (env.generateStageUniqueID (stg.digest.getD "") stages).2,
        .atomicStoreStagesByDigestToCache stageName (stg.digest.getD "")
          (stages.map (fun s => s.stageID) ++ [newDesc.stageID]),
        .unlockStage (stg.digest.getD "")],
       { stg with
         image := some ⟨(env.generateStageUniqueID (stg.digest.getD "") stages).1,
                        some newDesc⟩ }⟩ := by
  simp [atomicBuildStageImage, hb, hl, hg, hs, hst, hd]

/-- C5 witness: the publish-path hypotheses discharged on the sample
environment with one prior candidate. -/
theorem atomicBuildStageImage_cache_stage_ids_witness :
    sampleAtomicEnvMiss.selectSuitableStage [sampleDesc] = .ok none ∧
    atomicBuildStageImage sampleAtomicEnvMiss "install" "stage install" sampleStg =
      ⟨goOf sampleAtomicEnvMiss.atomicStoreStagesByDigestToCache,
       [.buildStage, .lockStage "digest-1", .getStagesByDigest "digest-1",
        .selectSuitableStage "digest-1", .generateStageUniqueID "digest-1",
        .storeImage "repo/image:new", .getStageDescription "digest-1" "3333",
        .atomicStoreStagesByDigestToCache "install" "digest-1"
          ([sampleDesc].map (fun s => s.stageID) ++ [sampleDesc2.stageID]),
        .unlockStage "digest-1"],
       { sampleStg with image := some ⟨"repo/image:new", some sampleDesc2⟩ }⟩ :=
  ⟨rfl, atomicBuildStageImage_cache_stage_ids sampleAtomicEnvMiss "install" "stage install"
    sampleStg [sampleDesc] sampleDesc2 rfl rfl rfl rfl rfl rfl⟩

/-! ## C6 -/

/-- Map assignment then lookup: the assigned key reads back the new value,
other keys are unchanged. -/
theorem lookupRecord_setImageRecord (m : List (String × ReportImageRecord))
    (k n : String) (v : ReportImageRecord) :
    lookupRecord (setImageRecord m k v) n = if k = n then some v else lookupRecord m n := by
  induction m with
  | nil => simp [setImageRecord, lookupRecord]
  | cons p rest ih =>
    by_cases hpk : p.1 = k
    · by_cases hkn : k = n
      · simp [setImageRecord, hpk, lookupRecord, hkn]
      · have hpn : ¬p.1 = n := by rw [hpk]; exact hkn
        simp [setImageRecord, hpk, lookupRecord, hkn, hpn]
    · by_cases hpn : p.1 = n
      · have hkn : ¬k = n := fun h => hpk (hpn.trans h.symm)
        have hnk : ¬n = k := fun h => hkn h.symm
        simp [setImageRecord, hpk, lookupRecord, hpn, hkn, hnk]
      · simp [setImageRecord, hpk, lookupRecord, hpn, ih]

/-- Generalized fold form of the report-membership property. -/
theorem createReportImages_lookup_aux (images : List ConveyorImage) :
    ∀ (acc : List (String × ReportImageRecord)) (n : String),
      (lookupRecord
        (images.foldl
          (fun acc img =>
            if img.isArtifact then acc
            else setImageRecord acc img.name (reportRecordOf img.lastStageInfo))
          acc) n).isSome = true ↔
        (lookupRecord acc n).isSome = true ∨
          ∃ img ∈ images, img.isArtifact = false ∧ img.name = n := by
  induction images with
  | nil => simp
  | cons img rest ih =>
    intro acc n
    rw [List.foldl_cons]
    by_cases ha : img.isArtifact
    · rw [if_pos ha, ih]
      constructor
      · rintro (h | ⟨i, hi, hf, hn⟩)
        · exact Or.inl h
        · exact Or.inr ⟨i, List.mem_cons_of_mem _ hi, hf, hn⟩
      · rintro (h | ⟨i, hi, hf, hn⟩)
        · exact Or.inl h
        · rcases List.mem_cons.mp hi with rfl | hi2
          · rw [ha] at hf; cases hf
          · exact Or.inr ⟨i, hi2, hf, hn⟩
    · rw [if_neg ha, ih]
      have ha2 : img.isArtifact = false := by simpa using ha
      have hset : (lookupRecord (setImageRecord acc img.name
          (reportRecordOf img.lastStageInfo)) n).isSome = true ↔
          (img.name = n ∨ (lookupRecord acc n).isSome = true) := by
        rw [lookupRecord_setImageRecord]
        by_cases hn : img.name = n
        · simp [hn]
        · simp [hn]
      rw [hset]
      constructor
      · rintro ((hn | h) | ⟨i, hi, hf, hn⟩)
        · exact Or.inr ⟨img, List.mem_cons_self img rest, ha2, hn⟩
        · exact Or.inl h
        · exact Or.inr ⟨i, List.mem_cons_of_mem _ hi, hf, hn⟩
      · rintro (h | ⟨i, hi, hf, hn⟩)
        · exact Or.inl (Or.inr h)
        · rcases List.mem_cons.mp hi with rfl | hi2
          · exact Or.inl (Or.inl hn)
          · exact Or.inr ⟨i, hi2, hf, hn⟩

/-- C6: the report map produced by `createReport` has an entry at a name
exactly when some image of the conveyor with that name is not marked as an
artifact; artifact images never contribute an entry. -/
theorem createReport_artifact_filter (images : List ConveyorImage) (n : String) :
    (lookupRecord (createReportImages images) n).isSome = true ↔
      ∃ img ∈ images, img.isArtifact = false ∧ img.name = n := by
  rw [createReportImages, createReportImages_lookup_aux images [] n]
  simp [lookupRecord]

/-! ## C7 -/

/-- A string extended by a newline and a closing brace ends in the brace. -/
theorem append_close_brace_getLast (s : String) :
    (s ++ "\n\x7d").data.getLast? = some '}' := by
  cases s with
  | mk l =>
    show (l ++ ['\n', '}']).getLast? = some '}'
    have h : l ++ ['\n', '}'] = (l ++ ['\n']) ++ ['}'] := by simp
    rw [h, List.getLast?_concat]

/-- The marshalled report never ends in a newline: its last character is the
top-level closing brace. -/
theorem marshalImagesReport_getLast (m : List (String × ReportImageRecord)) :
    (marshalImagesReport m).data.getLast? = some '}' := by
  unfold marshalImagesReport
  exact append_close_brace_getLast _

/-- C7: when a report path is configured and the format is json, `createReport`
writes exactly one file, at that path with mode 0644, whose content is the
tab-indented JSON marshalling of the images report followed by exactly one
trailing newline (the JSON itself ends in the closing brace); with an empty
path or a non-json format nothing is written. -/
theorem createReport_file_write (path fmt : String) (images : List ConveyorImage) :
    (path ≠ "" ∧ fmt = ReportJSON →
      createReport path fmt images =
        some ⟨path, 0o644, marshalImagesReport (createReportImages images) ++ "\n"⟩)
    ∧ (¬(path ≠ "" ∧ fmt = ReportJSON) → createReport path fmt images = none)
    ∧ (marshalImagesReport (createReportImages images)).data.getLast? = some '}' := by
  refine ⟨?_, ?_, marshalImagesReport_getLast _⟩
  · intro h
    simp [createReport, h]
  · intro h
    simp [createReport, h]

/-- C7 witness: the configured-path condition discharged on a concrete path,
the json format and a one-image conveyor; a non-json format writes nothing. -/
theorem createReport_file_write_witness :
    (("report.json" ≠ "" ∧ "json" = ReportJSON) →
      createReport "report.json" "json" [⟨"app", false, sampleInfo⟩] =
        some ⟨"report.json", 0o644,
          marshalImagesReport (createReportImages [⟨"app", false, sampleInfo⟩]) ++ "\n"⟩) ∧
    (¬("report.json" ≠ "" ∧ "envfile" = ReportJSON) →
      createReport "report.json" "envfile" [⟨"app", false, sampleInfo⟩] = none) ∧
    ("report.json" ≠ "" ∧ "json" = ReportJSON) ∧
    ¬("report.json" ≠ "" ∧ "envfile" = ReportJSON) :=
  ⟨(createReport_file_write "report.json" "json" [⟨"app", false, sampleInfo⟩]).1,
   (createReport_file_write "report.json" "envfile" [⟨"app", false, sampleInfo⟩]).2.1,
   ⟨by decide, rfl⟩, by decide⟩

/-! ## C8 -/

/-- Full characterization of the retry loop: the sleep list is bounded by the
allowed retries, every sleep is a rand draw plus 15, the returned value is the
result of the call after the last sleep, an error is returned only on
exhaustion or a non-retryable message, and every retried call failed with a
retryable message. -/
theorem retryLoop_spec (se : List String) (call : Nat → Option String) (rand : Nat → Nat) :
    ∀ remaining attempt : Nat,
      ((retryLoop se call rand attempt remaining).2.length ≤ remaining) ∧
      (∀ s ∈ (retryLoop se call rand attempt remaining).2, ∃ k, s = rand k + 15) ∧
      ((retryLoop se call rand attempt remaining).1 =
        call (attempt + (retryLoop se call rand attempt remaining).2.length)) ∧
      (∀ e, (retryLoop se call rand attempt remaining).1 = some e →
        (retryLoop se call rand attempt remaining).2.length = remaining ∨
          se.any (fun sp => strContains e sp) = false) ∧
      (∀ i < (retryLoop se call rand attempt remaining).2.length,
        ∃ e2, call (attempt + i) = some e2 ∧
          se.any (fun sp => strContains e2 sp) = true) := by
  intro remaining
  induction remaining with
  | zero =>
    intro attempt
    refine ⟨by simp [retryLoop], by simp [retryLoop], by simp [retryLoop], ?_,
      by simp [retryLoop]⟩
    intro e _
    left
    simp [retryLoop]
  | succ r ih =>
    intro attempt
    cases hc : call attempt with
    | none =>
      refine ⟨by simp [retryLoop, hc], by simp [retryLoop, hc], ?_, ?_, by simp [retryLoop, hc]⟩
      · simp [retryLoop, hc]
      · intro e he
        simp [retryLoop, hc] at he
    | some e0 =>
      by_cases hr : se.any (fun sp => strContains e0 sp) = true
      · have heq : retryLoop se call rand attempt (r + 1) =
            ((retryLoop se call rand (attempt + 1) r).1,
             (rand attempt + 15) :: (retryLoop se call rand (attempt + 1) r).2) := by
          simp [retryLoop, hc, hr]
        obtain ⟨ha, hb, hres, hd, he⟩ := ih (attempt + 1)
        rw [heq]
        refine ⟨?_, ?_, ?_, ?_, ?_⟩
        · simpa using Nat.succ_le_succ ha
        · intro s hs
          rcases List.mem_cons.mp hs with rfl | hs2
          · exact ⟨attempt, rfl⟩
          · exact hb s hs2
        · rw [hres]
          congr 1
          simp
          omega
        · intro e he2
          rcases hd e he2 with h | h
          · left
            simp [h]
          · right
            exact h
        · intro i hi
          cases i with
          | zero => exact ⟨e0, by simpa using hc, hr⟩
          | succ j =>
            have hj : j < (retryLoop se call rand (attempt + 1) r).2.length := by
              simpa using Nat.lt_of_succ_lt_succ hi
            obtain ⟨e2, h1, h2⟩ := he j hj
            refine ⟨e2, ?_, h2⟩
            have harith : attempt + (j + 1) = attempt + 1 + j := by omega
            rw [harith]
            exact h1
      · have hr2 : se.any (fun sp => strContains e0 sp) = false := by
          simpa using hr
        refine ⟨by simp [retryLoop, hc, hr2], by simp [retryLoop, hc, hr2], ?_, ?_,
          by simp [retryLoop, hc, hr2]⟩
        · simp [retryLoop, hc, hr2]
        · intro e he2
          right
          have : e = e0 := by
            have := he2
            simp [retryLoop, hc, hr2] at this
            exact this.symm
          rw [this]
          exact hr2

/-- C8 (amended): the pull and push retry loops retry only on the listed
transient error substrings, with at most 5 retries for pull and 10 for push;
before each retry they sleep a randomized backoff of at least 15 and at most
29 seconds (the code draws `rand.Intn(30-15) + 15`, so 30 is excluded); the
final result is the outcome of the call after the last retry, and an error
reaches the caller only on a non-matching message or on exhaustion. -/
theorem cliRetries_bounded_backoff (call : Nat → Option String) (rand : Nat → Nat)
    (hrand : ∀ k, rand k < 15) :
    ((doCliPullWithRetries call rand).2.length ≤ cliPullMaxAttempts ∧
     (∀ s ∈ (doCliPullWithRetries call rand).2, 15 ≤ s ∧ s ≤ 29) ∧
     ((doCliPullWithRetries call rand).1 =
       call (doCliPullWithRetries call rand).2.length) ∧
     (∀ e, (doCliPullWithRetries call rand).1 = some e →
       (doCliPullWithRetries call rand).2.length = cliPullMaxAttempts ∨
         pullSpecificErrors.any (fun sp => strContains e sp) = false) ∧
     (∀ i < (doCliPullWithRetries call rand).2.length,
       ∃ e2, call i = some e2 ∧
         pullSpecificErrors.any (fun sp => strContains e2 sp) = true)) ∧
    ((doCliPushWithRetries call rand).2.length ≤ cliPushMaxAttempts ∧
     (∀ s ∈ (doCliPushWithRetries call rand).2, 15 ≤ s ∧ s ≤ 29) ∧
     ((doCliPushWithRetries call rand).1 =
       call (doCliPushWithRetries call rand).2.length) ∧
     (∀ e, (doCliPushWithRetries call rand).1 = some e →
       (doCliPushWithRetries call rand).2.length = cliPushMaxAttempts ∨
         pushSpecificErrors.any (fun sp => strContains e sp) = false) ∧
     (∀ i < (doCliPushWithRetries call rand).2.length,
       ∃ e2, call i = some e2 ∧
         pushSpecificErrors.any (fun sp => strContains e2 sp) = true)) := by
  obtain ⟨a1, b1, c1, d1, e1⟩ :=
    retryLoop_spec pullSpecificErrors call rand cliPullMaxAttempts 0
  obtain ⟨a2, b2, c2, d2, e2⟩ :=
    retryLoop_spec pushSpecificErrors call rand cliPushMaxAttempts 0
  constructor
  · refine ⟨a1, ?_, ?_, d1, ?_⟩
    · intro s hs
      obtain ⟨k, rfl⟩ := b1 s hs
      have := hrand k
      constructor
      · omega
      · omega
    · simpa using c1
    · intro i hi
      obtain ⟨e2x, h1, h2⟩ := e1 i hi
      exact ⟨e2x, by simpa using h1, h2⟩
  · refine ⟨a2, ?_, ?_, d2, ?_⟩
    · intro s hs
      obtain ⟨k, rfl⟩ := b2 s hs
      have := hrand k
      constructor
      · omega
      · omega
    · simpa using c2
    · intro i hi
      obtain ⟨e2x, h1, h2⟩ := e2 i hi
      exact ⟨e2x, by simpa using h1, h2⟩

/-- C8 witness: the randomized-draw bound discharged for the constant draw 0
and an always-succeeding call. -/
theorem cliRetries_bounded_backoff_witness :
    (∀ k : Nat, (fun _ : Nat => 0) k < 15) ∧
    (((doCliPullWithRetries (fun _ => none) (fun _ => 0)).2.length ≤ cliPullMaxAttempts ∧
     (∀ s ∈ (doCliPullWithRetries (fun _ => none) (fun _ => 0)).2, 15 ≤ s ∧ s ≤ 29) ∧
     ((doCliPullWithRetries (fun _ => none) (fun _ => 0)).1 =
       (fun _ => none) (doCliPullWithRetries (fun _ => none) (fun _ => 0)).2.length) ∧
     (∀ e, (doCliPullWithRetries (fun _ => none) (fun _ => 0)).1 = some e →
       (doCliPullWithRetries (fun _ => none) (fun _ => 0)).2.length = cliPullMaxAttempts ∨
         pullSpecificErrors.any (fun sp => strContains e sp) = false) ∧
     (∀ i < (doCliPullWithRetries (fun _ => none) (fun _ => 0)).2.length,
       ∃ e2, (fun _ => none) i = some e2 ∧
         pullSpecificErrors.any (fun sp => strContains e2 sp) = true)) ∧
    ((doCliPushWithRetries (fun _ => none) (fun _ => 0)).2.length ≤ cliPushMaxAttempts ∧
     (∀ s ∈ (doCliPushWithRetries (fun _ => none) (fun _ => 0)).2, 15 ≤ s ∧ s ≤ 29) ∧
     ((doCliPushWithRetries (fun _ => none) (fun _ => 0)).1 =
       (fun _ => none) (doCliPushWithRetries (fun _ => none) (fun _ => 0)).2.length) ∧
     (∀ e, (doCliPushWithRetries (fun _ => none) (fun _ => 0)).1 = some e →
       (doCliPushWithRetries (fun _ => none) (fun _ => 0)).2.length = cliPushMaxAttempts ∨
         pushSpecificErrors.any (fun sp => strContains e sp) = false) ∧
     (∀ i < (doCliPushWithRetries (fun _ => none) (fun _ => 0)).2.length,
       ∃ e2, (fun _ => none) i = some e2 ∧
         pushSpecificErrors.any (fun sp => strContains e2 sp) = true))) :=
  ⟨fun _ => Nat.zero_lt_succ 14,
   cliRetries_bounded_backoff (fun _ => none) (fun _ => 0) (fun _ => Nat.zero_lt_succ 14)⟩

/-- C8 counterexample: the claim's "15 to 30 seconds inclusive on both ends"
is false — with the maximal admissible random draw 14 (every `rand.Intn(15)`
draw is below 15) each pull retry sleeps 29 seconds, and no admissible draw
can produce a 30-second sleep. -/
theorem cliRetries_backoff_excludes_thirty :
    (doCliPullWithRetries (fun _ => some "i/o timeout") (fun _ => 14)).2 =
      [29, 29, 29, 29, 29] ∧
    (List.range 15).all (fun r => r + 15 != 30) = true := by
  decide

/-! ## C10 -/

/-- C10: with no local git repository, `publishImageMetadata` returns nil and
performs no call at all, so `AfterImageStages` of a non-artifact image performs
no image-metadata storage access; with a repository present, the
`PutImageMetadata` write happens exactly when the head commit was read and
`IsImageMetadataExist` reported the (commit, stage ID) pair absent. -/
theorem publishImageMetadata_guarded :
    (∀ env : PublishEnv, env.localGitRepo = none → publishImageMetadata env = (.ok, []))
    ∧ (∀ env : AfterEnv, env.publish.localGitRepo = none → env.isArtifact = false →
        (afterImageStages env).2.all (fun e => !isImageMetadataEvent e) = true)
    ∧ (∀ (env : PublishEnv) (repo : GitRepo), env.localGitRepo = some repo →
        ((publishImageMetadata env).2.any isPutImageMetadataEvent = true ↔
          ∃ c, repo.headCommit = .ok c ∧ env.isImageMetadataExist = .ok false)) := by
  refine ⟨?_, ?_, ?_⟩
  · intro env h
    simp [publishImageMetadata, h]
  · intro env hrepo hart
    have hpub : publishImageMetadata env.publish = (.ok, []) := by
      simp [publishImageMetadata, hrepo]
    by_cases hm : env.shouldAddManagedImageRecord
    · cases ham : env.addManagedImage with
      | error e =>
        simp [afterImageStages, hart, addManagedImageStep, hm, ham, isImageMetadataEvent]
      | ok _ =>
        simp [afterImageStages, hart, addManagedImageStep, hm, ham, hpub, isImageMetadataEvent]
    · simp [afterImageStages, hart, addManagedImageStep, hm, hpub]
  · intro env repo hrepo
    cases hhc : repo.headCommit with
    | error e =>
      simp [publishImageMetadata, hrepo, hhc, isPutImageMetadataEvent]
    | ok commit =>
      cases hex : env.isImageMetadataExist with
      | error e =>
        simp [publishImageMetadata, hrepo, hhc, hex, isPutImageMetadataEvent]
      | ok b =>
        cases b with
        | true =>
          simp [publishImageMetadata, hrepo, hhc, hex, isPutImageMetadataEvent]
        | false =>
          simp [publishImageMetadata, hrepo, hhc, hex, isPutImageMetadataEvent]

/-- C10 witness: the no-repository equations and the present-repository
put-iff discharged on concrete environments. -/
theorem publishImageMetadata_guarded_witness :
    publishImageMetadata ⟨"proj", "app", "sid", none, Except.ok true, Except.ok ()⟩ =
      (.ok, []) ∧
    (afterImageStages
      ⟨false, true, Except.ok (),
       ⟨"proj", "app", "sid", none, Except.ok true, Except.ok ()⟩⟩).2.all
      (fun e => !isImageMetadataEvent e) = true ∧
    ((publishImageMetadata
        ⟨"proj", "app", "sid", some ⟨Except.ok "c0"⟩, Except.ok false,
         Except.ok ()⟩).2.any isPutImageMetadataEvent = true ↔
      ∃ c, (GitRepo.mk (Except.ok "c0")).headCommit = .ok c ∧
        (Except.ok false : Except String Bool) = .ok false) :=
  ⟨publishImageMetadata_guarded.1 _ rfl,
   publishImageMetadata_guarded.2.1
     ⟨false, true, Except.ok (), ⟨"proj", "app", "sid", none, Except.ok true, Except.ok ()⟩⟩
     rfl rfl,
   publishImageMetadata_guarded.2.2 _ (GitRepo.mk (Except.ok "c0")) rfl⟩
